import Mathlib

/-!
Verification development for the send-side reliable-transport engine of
`src/assignments/task-udp` (files `main.rs`, `congestion.rs`, `rtt.rs`).

Modelling conventions:
- `f64` quantities whose operations here are exact dyadic arithmetic
  (halving, `0.75·x + 0.25·y`, `min`, `max`, `abs`) are embedded as `ℚ`;
  the one genuinely transcendental computation (`calculate_rto`, a
  base-2 logarithm) is embedded over `ℝ`, idealizing IEEE rounding.
- `Instant` values are abstract clock readings in milliseconds, supplied
  nondeterministically by the environment; `Duration` values are whole
  milliseconds (`Duration::from_millis` truncates to whole ms already in
  the source).
- `HashMap<u32, PacketInfo>` is an association list with unique keys;
  `insert` removes any stale binding first, so its length matches the
  map's size even on key collision.
- Sequence numbers and byte counters are `ℕ`.  In the source they are
  `u32`/`usize`; a `u32` overflow of `next_seq` would require a single
  transfer of more than 2^32 packets (and aborts by arithmetic-overflow
  panic in a debug build), so the `ℕ` model covers every non-panicking
  execution.
-/

/-! ## `congestion.rs` : CongestionControl -/

/-- `MIN_CWND` of `congestion.rs`. -/
def MIN_CWND : ℚ := 1

/-- `MAX_CWND` of `congestion.rs`. -/
def MAX_CWND : ℚ := 64

/-- The congestion-control state of `congestion.rs`: `cwnd` and `ssthresh`. -/
structure CongestionControl where
  cwnd : ℚ
  ssthresh : ℚ
deriving DecidableEq, Repr

/-- `CongestionControl::new`: cwnd = INITIAL_CWND = 2, ssthresh = INITIAL_SSTHRESH = 64. -/
def CongestionControl.new : CongestionControl := { cwnd := 2, ssthresh := 64 }

/-- `CongestionControl::on_ack`: slow start below ssthresh, congestion
avoidance above, clamped to MAX_CWND. -/
def CongestionControl.on_ack (c : CongestionControl) : CongestionControl :=
  let cwnd := if c.cwnd < c.ssthresh then c.cwnd + 1 else c.cwnd + 1 / c.cwnd
  { c with cwnd := min cwnd MAX_CWND }

/-- `CongestionControl::on_timeout`: ssthresh = max(cwnd/2, MIN_CWND) from the
old cwnd, then cwnd = MIN_CWND. -/
def CongestionControl.on_timeout (c : CongestionControl) : CongestionControl :=
  { c with ssthresh := max (c.cwnd / 2) MIN_CWND, cwnd := MIN_CWND }

/-- `CongestionControl::on_fast_retransmit`: ssthresh = max(cwnd/2, MIN_CWND),
then cwnd = ssthresh (the freshly written value). -/
def CongestionControl.on_fast_retransmit (c : CongestionControl) : CongestionControl :=
  let ssthresh := max (c.cwnd / 2) MIN_CWND
  { c with ssthresh := ssthresh, cwnd := ssthresh }

/-- `CongestionControl::window`: `cwnd.floor() as usize`. -/
def CongestionControl.window (c : CongestionControl) : ℕ := c.cwnd.floor.toNat

/-! ## `rtt.rs` : RttEstimator -/

/-- `MIN_RTO_MS` of `rtt.rs`. -/
def MIN_RTO_MS : ℚ := 200

/-- `MAX_RTO_MS` of `rtt.rs`. -/
def MAX_RTO_MS : ℚ := 10000

/-- The estimator state of `rtt.rs`: smoothed RTT and variance in (exact)
milliseconds, and the derived RTO as a whole-millisecond `Duration`. -/
structure RttEstimator where
  srtt : ℚ
  rttvar : ℚ
  rto : ℕ
deriving DecidableEq, Repr

/-- `RttEstimator::new`: srtt = 0, rttvar = 0, rto = INITIAL_RTO_MS = 1000 ms. -/
def RttEstimator.new : RttEstimator := { srtt := 0, rttvar := 0, rto := 1000 }

/-- `update_rto` of `rtt.rs`: RTO = clamp(srtt + 4·rttvar, MIN_RTO_MS,
MAX_RTO_MS), stored as a whole-millisecond `Duration` (`as u64` truncates;
the clamped value is ≥ 200 so truncation is the floor). -/
def RttEstimator.update_rto (e : RttEstimator) : RttEstimator :=
  { e with rto := (min (max (e.srtt + 4 * e.rttvar) MIN_RTO_MS) MAX_RTO_MS).floor.toNat }

/-- `RttEstimator::update`: first sample (detected by srtt == 0) sets
srtt = sample and rttvar = sample/2; otherwise the Jacobson/Karels fold;
then the RTO is recomputed. -/
def RttEstimator.update (e : RttEstimator) (rtt_ms : ℚ) : RttEstimator :=
  let e' :=
    if e.srtt = 0 then
      { e with srtt := rtt_ms, rttvar := rtt_ms / 2 }
    else
      { e with
        rttvar := 3 / 4 * e.rttvar + 1 / 4 * |e.srtt - rtt_ms|,
        srtt := 7 / 8 * e.srtt + 1 / 8 * rtt_ms }
  e'.update_rto

/-- `RttEstimator::backoff`: double the current RTO, capped at MAX_RTO_MS. -/
def RttEstimator.backoff (e : RttEstimator) : RttEstimator :=
  { e with rto := min (e.rto * 2) 10000 }

/-! ## `main.rs` : `calculate_rto` (per-packet logarithmic backoff)

The source computes `base_ms * (ln(retry_count + 1) / ln 2)` in `f64`,
caps it at 30000.0 and truncates with `as u64`; the model idealizes the
`f64` logarithm as the exact real one. -/

/-- `INITIAL_RTO_MS` of `main.rs` (also the base of the logarithmic backoff). -/
def INITIAL_RTO_MS : ℕ := 1000

/-- `calculate_rto` of `main.rs`, in milliseconds: 1000·(ln(n+1)/ln 2) for
n ≥ 1 (and multiplier 1 for n = 0), capped at 30000 and truncated to whole
milliseconds. -/
noncomputable def calculate_rto (retry_count : ℕ) : ℕ :=
  let base_ms : ℝ := (INITIAL_RTO_MS : ℝ)
  let multiplier : ℝ :=
    if retry_count = 0 then 1
    else Real.log ((retry_count : ℝ) + 1) / Real.log 2
  ⌊min (base_ms * multiplier) 30000⌋₊

/-- The unclamped real value 1000·log₂(n+1), for stating C10. -/
noncomputable def rto_log_curve (n : ℕ) : ℝ :=
  1000 * (Real.log ((n : ℝ) + 1) / Real.log 2)

/-! ## `main.rs` : the flood-avoidance transmission engine -/

/-- `MAX_PAYLOAD` of `main.rs`. -/
def MAX_PAYLOAD : ℕ := 1200

/-- `FLOOD_THRESHOLD` of `main.rs`. -/
def FLOOD_THRESHOLD : ℕ := 5

/-- `PacketInfo` of `main.rs`: the raw datagram bytes, the `Instant` it was
last sent (clock reading in ms), and the retry count. -/
structure PacketInfo where
  packet : List ℕ
  sent_time : ℕ
  retry_count : ℕ
deriving DecidableEq, Repr

/-- `TransmissionState` of `main.rs`. -/
structure TransmissionState where
  transmitted : ℕ
  next_seq : ℕ
  checknum : ℕ
  unacked_packets : List (ℕ × PacketInfo)
  last_acked_seq : ℕ
  window_size : ℕ
deriving DecidableEq, Repr

/-- The keys of the unacked-packet table. -/
def tableKeys (t : List (ℕ × PacketInfo)) : List ℕ := t.map (fun p => p.1)

/-- `HashMap::insert`: any stale binding of the key goes away, the new one
comes in. -/
def hmInsert (t : List (ℕ × PacketInfo)) (k : ℕ) (v : PacketInfo) :
    List (ℕ × PacketInfo) :=
  t.filter (fun p => p.1 ≠ k) ++ [(k, v)]

/-- `HashMap::get`. -/
def hmGet (t : List (ℕ × PacketInfo)) (k : ℕ) : Option PacketInfo :=
  (t.find? (fun p => p.1 = k)).map (fun p => p.2)

/-- The big-endian bytes of a `u32` (`seq.to_be_bytes()` in `create_packet`). -/
def toBeBytes4 (n : ℕ) : List ℕ :=
  [n / 2 ^ 24 % 256, n / 2 ^ 16 % 256, n / 2 ^ 8 % 256, n % 256]

/-- The big-endian bytes of a `u16` (`(payload_size as u16).to_be_bytes()`). -/
def toBeBytes2 (n : ℕ) : List ℕ :=
  [n / 2 ^ 8 % 256, n % 256]

/-- `create_packet` of `main.rs`: 4-byte big-endian sequence, 2-byte
big-endian payload length, then `payload_size` copies of the fill byte. -/
def create_packet (seq : ℕ) (payload_size : ℕ) (character : ℕ) : List ℕ :=
  toBeBytes4 seq ++ toBeBytes2 payload_size ++ List.replicate payload_size character

/-- The body of one pass of the `while` loop of `send_new_packets`: build
the packet for `next_seq`, insert it with retry_count = 0, advance the
transmitted counter and `next_seq`.  All packets of one call share the
caller's clock reading `now`. -/
def sendPacket (size character now : ℕ) (s : TransmissionState) :
    List ℕ × TransmissionState :=
  let payload_size := min (size - s.transmitted) MAX_PAYLOAD
  let packet := create_packet s.next_seq payload_size character
  (packet,
    { s with
      unacked_packets :=
        hmInsert s.unacked_packets s.next_seq
          { packet := packet, sent_time := now, retry_count := 0 },
      transmitted := s.transmitted + payload_size,
      next_seq := s.next_seq + 1 })

/-- The `while` loop of `send_new_packets`.  The source loop runs while
`transmitted < size && unacked_packets.len() < window_size`; every pass sends
at least one byte, so `size - transmitted` bounds its iterations and serves
as structural fuel: with that fuel the fuel never runs out before the loop
condition turns false.  Returns the new state and the packets sent, oldest
first. -/
def send_loop (size character now : ℕ) :
    ℕ → TransmissionState → TransmissionState × List (List ℕ)
  | 0, s => (s, [])
  | fuel + 1, s =>
    if s.transmitted < size ∧ s.unacked_packets.length < s.window_size then
      let sent := sendPacket size character now s
      let r := send_loop size character now fuel sent.2
      (r.1, sent.1 :: r.2)
    else (s, [])

/-- `send_new_packets` of `main.rs`: refuse to send anything at or beyond
FLOOD_THRESHOLD unacked packets, otherwise run the send loop. -/
def send_new_packets (size character now : ℕ) (s : TransmissionState) :
    TransmissionState × List (List ℕ) :=
  if FLOOD_THRESHOLD ≤ s.unacked_packets.length then (s, [])
  else send_loop size character now (size - s.transmitted) s

/-- `parse_ack` of `main.rs`: fewer than 5 bytes is malformed; otherwise the
first four bytes are the big-endian cumulative sequence and the fifth the
check number. -/
def parse_ack (ack_buf : List ℕ) : Option (ℕ × ℕ) :=
  match ack_buf with
  | b0 :: b1 :: b2 :: b3 :: b4 :: _ =>
    some (b0 * 2 ^ 24 + b1 * 2 ^ 16 + b2 * 2 ^ 8 + b3, b4)
  | _ => none

/-- `handle_ack` of `main.rs`: the check number is stored unconditionally;
an ack beyond `last_acked_seq` removes every table entry in
`(last_acked_seq, acked_seq]`, advances `last_acked_seq` and grows the
window (cap 50); any other ack changes nothing further. -/
def handle_ack (s : TransmissionState) (acked_seq checknum : ℕ) :
    TransmissionState :=
  let s := { s with checknum := checknum }
  if s.last_acked_seq < acked_seq then
    { s with
      unacked_packets :=
        s.unacked_packets.filter
          (fun p => ¬(s.last_acked_seq < p.1 ∧ p.1 ≤ acked_seq)),
      last_acked_seq := acked_seq,
      window_size := if s.window_size < 50 then s.window_size + 1 else s.window_size }
  else s

/-- The collecting `while` loop of `get_proactive_retransmits`: consecutive
sequences already in the table, starting at `seq`, stopping at the first gap
or after `max_proactive` entries (the fuel). -/
def proactive_collect (t : List (ℕ × PacketInfo)) : ℕ → ℕ → List ℕ
  | _, 0 => []
  | seq, fuel + 1 =>
    if (hmGet t seq).isSome then seq :: proactive_collect t (seq + 1) fuel
    else []

/-- `get_proactive_retransmits` of `main.rs`: after an ack advance of 1–3
with a nonempty table, up to `min(ack_advance · 2, 5)` consecutive unacked
sequences starting at `last_acked_seq + 1`. -/
def get_proactive_retransmits (s : TransmissionState) (ack_advance : ℕ) :
    List ℕ :=
  if 0 < ack_advance ∧ ack_advance ≤ 3 ∧ s.unacked_packets ≠ [] then
    proactive_collect s.unacked_packets (s.last_acked_seq + 1)
      (min (ack_advance * 2) 5)
  else []

/-- The proactive-retransmission block of `transmit_loop`: each listed
sequence still in the table is resent with a fresh send time and an
unchanged retry count. -/
def apply_proactive (now : ℕ) (s : TransmissionState) (ack_advance : ℕ) :
    TransmissionState :=
  let seqs := get_proactive_retransmits s ack_advance
  { s with
    unacked_packets :=
      s.unacked_packets.map (fun p =>
        if p.1 ∈ seqs then (p.1, { p.2 with sent_time := now }) else p) }

/-- The per-packet timeout used inside `check_and_retransmit`: a flat
`INITIAL_RTO_MS / 2` in recovery mode, `calculate_rto` otherwise. -/
noncomputable def packet_rto (in_recovery : Bool) (info : PacketInfo) : ℕ :=
  if in_recovery then INITIAL_RTO_MS / 2 else calculate_rto info.retry_count

open Classical in
/-- The selection logic of `check_and_retransmit` of `main.rs`: which
sequences get retransmitted on this tick.  A packet is timed out when its
age `now − sent_time` exceeds its `packet_rto`.  The source iterates the
`HashMap` in arbitrary order and then sorts by sequence, so the association
list stands in for the map directly. -/
noncomputable def choose_retransmits (now : ℕ) (s : TransmissionState) : List ℕ :=
  let next_expected := s.last_acked_seq + 1
  let in_recovery : Bool := FLOOD_THRESHOLD ≤ s.unacked_packets.length
  let timedOut : PacketInfo → Prop := fun info =>
    packet_rto in_recovery info < now - info.sent_time
  let first : List ℕ :=
    match hmGet s.unacked_packets next_expected with
    | some info => if timedOut info then [next_expected] else []
    | none => []
  if first = [] then
    let timed_out :=
      ((s.unacked_packets.filter (fun p => timedOut p.2)).map (fun p => p.1)).mergeSort
        (fun a b => a ≤ b)
    if timed_out = [] then
      if in_recovery ∧ s.unacked_packets ≠ [] then
        ((tableKeys s.unacked_packets).mergeSort (fun a b => a ≤ b)).take 1
      else []
    else
      let max_retransmit :=
        if in_recovery then min timed_out.length 5
        else if s.window_size ≤ 2 then 1
        else min timed_out.length 3
      timed_out.take max_retransmit
  else
    let others :=
      ((s.unacked_packets.filter
          (fun p => p.1 ≠ next_expected ∧ timedOut p.2)).map (fun p => p.1)).mergeSort
        (fun a b => a ≤ b)
    first ++
      (if in_recovery then others.take 4
       else if 1 < s.window_size then others.take 2
       else [])

/-- `check_and_retransmit` of `main.rs`: if nothing is selected, no state
change; otherwise every selected sequence still in the table is resent with
a fresh send time and an incremented retry count, and outside recovery mode
the window is halved (floor, minimum 1). -/
noncomputable def check_and_retransmit (now : ℕ) (s : TransmissionState) :
    TransmissionState :=
  let to_retransmit := choose_retransmits now s
  if to_retransmit = [] then s
  else
    let in_recovery : Bool := FLOOD_THRESHOLD ≤ s.unacked_packets.length
    { s with
      unacked_packets :=
        s.unacked_packets.map (fun p =>
          if p.1 ∈ to_retransmit then
            (p.1, { p.2 with sent_time := now, retry_count := p.2.retry_count + 1 })
          else p),
      window_size :=
        if in_recovery then s.window_size else max (s.window_size / 2) 1 }

/-- `GLOBAL_TIMEOUT` of `main.rs` (180 s) in milliseconds. -/
def GLOBAL_TIMEOUT_MS : ℕ := 180000

/-- What one bounded-wait `recv_from` produced: a datagram's bytes, a
timeout/would-block condition, or any other socket error. -/
inductive RecvOutcome where
  | ok (ack_buf : List ℕ)
  | errWouldBlock
  | errTimedOut
  | errOther
deriving DecidableEq, Repr

/-- The pre-receive phase of one `transmit_loop` iteration: at or beyond
FLOOD_THRESHOLD unacked packets the window drops to 1 and retransmission is
forced; otherwise new packets are sent. -/
noncomputable def loop_send_phase (size character now : ℕ)
    (s : TransmissionState) : TransmissionState :=
  if FLOOD_THRESHOLD ≤ s.unacked_packets.length then
    check_and_retransmit now
      { s with window_size := if 1 < s.window_size then 1 else s.window_size }
  else (send_new_packets size character now s).1

/-- One full iteration of `transmit_loop` of `main.rs`: the global-timeout
check, the send/recovery phase, then the dispatch on the receive outcome.
`elapsed` is the wall-clock time since the loop started, `now` the clock
reading used for this iteration's sends.  In the source the only `Err`
produced inside the loop is the global-timeout abort: a non-timeout socket
error is only printed to stderr and the loop goes on. -/
noncomputable def transmit_loop_step (elapsed now size character : ℕ)
    (r : RecvOutcome) (s : TransmissionState) : Except String TransmissionState :=
  if GLOBAL_TIMEOUT_MS < elapsed then
    .error "Global timeout exceeded"
  else
    let s1 := loop_send_phase size character now s
    match r with
    | .ok ack_buf =>
      match parse_ack ack_buf with
      | some (acked_seq, checknum) =>
        let old_acked := s1.last_acked_seq
        let s2 := handle_ack s1 acked_seq checknum
        .ok (apply_proactive now s2 (acked_seq - old_acked))
      | none => .ok s1
    | .errWouldBlock => .ok (check_and_retransmit now s1)
    | .errTimedOut => .ok (check_and_retransmit now s1)
    | .errOther => .ok s1

/-- The initial `TransmissionState` built in `transmit_loop`. -/
def initState : TransmissionState :=
  { transmitted := 0, next_seq := 1, checknum := 0, unacked_packets := [],
    last_acked_seq := 0, window_size := 10 }

/-- One engine step of `transmit_loop`, with the acknowledgment value left
completely arbitrary (whatever four bytes arrive on the socket): a send
phase, an incoming ack, the proactive-retransmission block, a
timeout-driven retransmission pass, or the recovery-mode window reduction.
The clock readings are chosen by the environment. -/
inductive EngStep (size character : ℕ) :
    TransmissionState → TransmissionState → Prop where
  | send (now : ℕ) (s : TransmissionState) :
      EngStep size character s (send_new_packets size character now s).1
  | ack (acked_seq checknum : ℕ) (s : TransmissionState) :
      EngStep size character s (handle_ack s acked_seq checknum)
  | proactive (now ack_advance : ℕ) (s : TransmissionState) :
      EngStep size character s (apply_proactive now s ack_advance)
  | retransmit (now : ℕ) (s : TransmissionState) :
      EngStep size character s (check_and_retransmit now s)
  | floodReduce (s : TransmissionState) :
      FLOOD_THRESHOLD ≤ s.unacked_packets.length →
      EngStep size character s { s with window_size := 1 }

/-- Engine steps as `EngStep`, but every acknowledgment only covers
sequences that were actually allocated (acked_seq < next_seq), which is
how the cumulative-acknowledgment peer of the spec behaves. -/
inductive ValidStep (size character : ℕ) :
    TransmissionState → TransmissionState → Prop where
  | send (now : ℕ) (s : TransmissionState) :
      ValidStep size character s (send_new_packets size character now s).1
  | ack (acked_seq checknum : ℕ) (s : TransmissionState) :
      acked_seq < s.next_seq →
      ValidStep size character s (handle_ack s acked_seq checknum)
  | proactive (now ack_advance : ℕ) (s : TransmissionState) :
      ValidStep size character s (apply_proactive now s ack_advance)
  | retransmit (now : ℕ) (s : TransmissionState) :
      ValidStep size character s (check_and_retransmit now s)
  | floodReduce (s : TransmissionState) :
      FLOOD_THRESHOLD ≤ s.unacked_packets.length →
      ValidStep size character s { s with window_size := 1 }

/-- The cumulative-ack table invariant: every table key lies strictly
between the last cumulatively acked sequence and the next sequence to
allocate. -/
def TableInv (s : TransmissionState) : Prop :=
  (∀ k ∈ tableKeys s.unacked_packets, s.last_acked_seq < k ∧ k < s.next_seq) ∧
  s.last_acked_seq < s.next_seq

/-! ## The canonical full-congestion-control engine (spec §4.3)

`src/` carries the Reno-style leaves — `congestion.rs` (with
`on_fast_retransmit` / `on_timeout`) and `rtt.rs` (with `backoff`) — but no
code in `src/` ever calls them: the checked-in `main.rs` is the earlier
flood-avoidance engine, and the spec states it targets the full
congestion-control variant of the engine as the canonical design.  The two
definitions below model that missing engine's ack handling and
receive-timeout handling from the spec's own words, on top of the
source-translated leaves. -/

/-- The transmission state of the full congestion-control engine: segment
table, cumulative-ack mark, duplicate-ack counter, the two `src/` leaves,
and the stored check value. -/
structure RenoState where
  table : List (ℕ × PacketInfo)
  last_acked_seq : ℕ
  dup_acks : ℕ
  cc : CongestionControl
  rtt : RttEstimator
  checknum : ℕ
deriving DecidableEq, Repr

/-- Modelled from the spec: the ack handling of the full
congestion-control engine, whose `main.rs` is missing from `src/` (only its
leaves `congestion.rs` / `rtt.rs` are present).  Per spec §4.3 step 3: a new
cumulative ack removes every entry in `(last_acked_seq, acked_seq]`, feeds
the oldest just-acked segment's round trip to the RTT estimator when its
retry count is 0 (Karn), calls `on_ack` once per removed entry, stores the
check value and resets the duplicate-ack counter; an ack equal to
`last_acked_seq` bumps the duplicate-ack counter and the third consecutive
one calls `on_fast_retransmit` once, resets the counter and immediately
retransmits segment `last_acked_seq + 1` regardless of its own timer; a
stale ack is ignored.  The second component lists the sequences
retransmitted at once. -/
def reno_handle_ack (now : ℕ) (st : RenoState) (acked_seq checknum : ℕ) :
    RenoState × List ℕ :=
  if st.last_acked_seq < acked_seq then
    let removed :=
      st.table.filter (fun p => st.last_acked_seq < p.1 ∧ p.1 ≤ acked_seq)
    let remaining :=
      st.table.filter (fun p => ¬(st.last_acked_seq < p.1 ∧ p.1 ≤ acked_seq))
    let rtt' :=
      match (removed.map (fun p => p.1)).min? with
      | some oldest =>
        match hmGet removed oldest with
        | some info =>
          if info.retry_count = 0 then st.rtt.update ((now - info.sent_time : ℕ) : ℚ)
          else st.rtt
        | none => st.rtt
      | none => st.rtt
    ({ st with
        table := remaining, last_acked_seq := acked_seq, dup_acks := 0,
        cc := Nat.iterate CongestionControl.on_ack removed.length st.cc,
        rtt := rtt', checknum := checknum }, [])
  else if acked_seq = st.last_acked_seq then
    let d := st.dup_acks + 1
    if d = 3 then
      ({ st with dup_acks := 0, cc := st.cc.on_fast_retransmit },
        [st.last_acked_seq + 1])
    else ({ st with dup_acks := d }, [])
  else (st, [])

/-- Modelled from the spec: the receive-timeout handling of the full
congestion-control engine, whose `main.rs` is missing from `src/`.  Per spec
§4.3 step 3: when segment `last_acked_seq + 1` exists in the table and its
age exceeds the current RTO, it is retransmitted — `on_timeout`, `backoff`,
resend with a refreshed send time and an incremented retry count; at most
that single oldest outstanding segment goes out per tick. -/
def reno_on_timeout (now : ℕ) (st : RenoState) : RenoState × List ℕ :=
  match hmGet st.table (st.last_acked_seq + 1) with
  | some info =>
    if st.rtt.rto < now - info.sent_time then
      ({ st with
          cc := st.cc.on_timeout, rtt := st.rtt.backoff,
          table := st.table.map (fun p =>
            if p.1 = st.last_acked_seq + 1 then
              (p.1, { p.2 with sent_time := now, retry_count := p.2.retry_count + 1 })
            else p) },
        [st.last_acked_seq + 1])
    else (st, [])
  | none => (st, [])

/-! ## Concrete states for witnesses and counterexamples -/

/-- After the first send burst of a 20000-byte transfer: segments 1–10 in
flight (the initial window), 12000 bytes transmitted. -/
def c6s1 : TransmissionState := (send_new_packets 20000 65 0 initState).1

/-- ...then an acknowledgment claiming sequence 100 — beyond anything ever
sent — is processed. -/
def c6s2 : TransmissionState := handle_ack c6s1 100 7

/-- ...then the engine sends again: fresh keys 11–17 enter the table below
`last_acked_seq` = 100. -/
def c6s3 : TransmissionState := (send_new_packets 20000 65 1 c6s2).1

/-- One valid send step from the initial state of a 3000-byte transfer. -/
def c6w1 : TransmissionState := (send_new_packets 3000 65 0 initState).1

/-- A mid-transfer state with `last_acked_seq` = 5 and segment 6 in flight. -/
def c7State : TransmissionState :=
  { transmitted := 2400, next_seq := 7, checknum := 0,
    unacked_packets := [(6, { packet := [0, 0, 0, 6, 0, 1, 65], sent_time := 0, retry_count := 0 })],
    last_acked_seq := 5, window_size := 10 }

/-- A state holding FLOOD_THRESHOLD = 5 unacked packets. -/
def c9State : TransmissionState :=
  { transmitted := 6000, next_seq := 6, checknum := 0,
    unacked_packets :=
      [1, 2, 3, 4, 5].map (fun k =>
        (k, { packet := [], sent_time := 0, retry_count := 0 })),
    last_acked_seq := 0, window_size := 10 }

/-- The state a loop iteration reaches when its receive attempt fails with
a non-timeout socket error: just the pre-receive send phase. -/
noncomputable def c3Post : TransmissionState := loop_send_phase 3000 65 0 initState

/-- A Reno engine state two duplicate acks deep, with segment 6 awaited. -/
def renoDupState : RenoState :=
  { table := [(6, { packet := [1], sent_time := 0, retry_count := 0 })],
    last_acked_seq := 5, dup_acks := 2,
    cc := CongestionControl.new, rtt := RttEstimator.new, checknum := 3 }

/-- A Reno engine state whose next expected segment (sequence 1) has been
waiting since time 0. -/
def renoTimeoutState : RenoState :=
  { table := [(1, { packet := [7], sent_time := 0, retry_count := 0 })],
    last_acked_seq := 0, dup_acks := 0,
    cc := CongestionControl.new, rtt := RttEstimator.new, checknum := 0 }

/-- The engine's initial state with the window widened to `w` ("an initial
window of at least 3" in the scenario). -/
def c8s0 (w : ℕ) : TransmissionState := { initState with window_size := w }

/-- The state after the first segment of a 3000-byte transfer. -/
def c8s1 (w character : ℕ) : TransmissionState :=
  (sendPacket 3000 character 0 (c8s0 w)).2

/-- The state after the second segment of a 3000-byte transfer. -/
def c8s2 (w character : ℕ) : TransmissionState :=
  (sendPacket 3000 character 0 (c8s1 w character)).2

/-- The state after the third segment of a 3000-byte transfer. -/
def c8s3 (w character : ℕ) : TransmissionState :=
  (sendPacket 3000 character 0 (c8s2 w character)).2


/-! ## Theorems -/


/-- C4: from any congestion-control state with cwnd = c, `on_timeout` leaves
cwnd = MIN_CWND (1) and ssthresh = max(c/2, MIN_CWND), while
`on_fast_retransmit` leaves cwnd = ssthresh = max(c/2, MIN_CWND), with no
reset of cwnd to MIN_CWND. -/
theorem congestion_on_timeout_on_fast_retransmit_spec (c : CongestionControl) :
    (c.on_timeout.cwnd = MIN_CWND ∧ c.on_timeout.ssthresh = max (c.cwnd / 2) MIN_CWND) ∧
    (c.on_fast_retransmit.cwnd = max (c.cwnd / 2) MIN_CWND ∧
      c.on_fast_retransmit.ssthresh = max (c.cwnd / 2) MIN_CWND) := by
  refine ⟨⟨rfl, rfl⟩, rfl, rfl⟩

/-- C5 (amended): `update` on a state with srtt = 0 (the estimator's notion of
"first sample") sets srtt = sample and rttvar = sample/2; on a state with
srtt ≠ 0 it applies the Jacobson/Karels formulas; after every update the RTO
is clamp(srtt + 4·rttvar, 200ms, 10s) in whole milliseconds; and a positive
srtt stays positive, so after a positive first sample every later update
takes the srtt ≠ 0 path. -/
theorem rtt_update_spec (e : RttEstimator) (s : ℚ) (hs : 0 ≤ s) :
    (e.srtt = 0 → (e.update s).srtt = s ∧ (e.update s).rttvar = s / 2) ∧
    (e.srtt ≠ 0 → (e.update s).rttvar = 3 / 4 * e.rttvar + 1 / 4 * |e.srtt - s| ∧
      (e.update s).srtt = 7 / 8 * e.srtt + 1 / 8 * s) ∧
    (e.update s).rto =
      (min (max ((e.update s).srtt + 4 * (e.update s).rttvar) MIN_RTO_MS) MAX_RTO_MS).floor.toNat ∧
    (0 < e.srtt → 0 < (e.update s).srtt) := by
  refine ⟨fun h => ?_, fun h => ?_, ?_, fun h => ?_⟩
  · simp [RttEstimator.update, RttEstimator.update_rto, h]
  · simp [RttEstimator.update, RttEstimator.update_rto, h]
  · by_cases h : e.srtt = 0 <;> simp [RttEstimator.update, RttEstimator.update_rto, h]
  · have hne : e.srtt ≠ 0 := ne_of_gt h
    simp only [RttEstimator.update, RttEstimator.update_rto, hne, if_neg, ite_false]
    linarith

/-- C5 witness: the theorem applied to the initial estimator and the concrete
sample 120 ms (srtt becomes 120, rttvar 60, RTO 360 ms). -/
theorem rtt_update_spec_witness :
    (RttEstimator.new.srtt = 0 →
      (RttEstimator.new.update 120).srtt = 120 ∧
      (RttEstimator.new.update 120).rttvar = 120 / 2) ∧
    (RttEstimator.new.srtt ≠ 0 →
      (RttEstimator.new.update 120).rttvar =
        3 / 4 * RttEstimator.new.rttvar + 1 / 4 * |RttEstimator.new.srtt - 120| ∧
      (RttEstimator.new.update 120).srtt =
        7 / 8 * RttEstimator.new.srtt + 1 / 8 * 120) ∧
    (RttEstimator.new.update 120).rto =
      (min (max ((RttEstimator.new.update 120).srtt + 4 * (RttEstimator.new.update 120).rttvar)
        MIN_RTO_MS) MAX_RTO_MS).floor.toNat ∧
    (0 < RttEstimator.new.srtt → 0 < (RttEstimator.new.update 120).srtt) :=
  rtt_update_spec RttEstimator.new 120 (by norm_num)

/-- C5 counterexample to the claim as stated: a first sample of 0 ms leaves
srtt = 0, so the *second* sample (100 ms here) is again handled by the
first-sample branch, not by the claimed subsequent-sample formulas. -/
theorem rtt_update_zero_first_sample_cex :
    ((RttEstimator.new.update 0).update 100).rttvar ≠
      3 / 4 * (RttEstimator.new.update 0).rttvar +
        1 / 4 * |(RttEstimator.new.update 0).srtt - 100| ∧
    ((RttEstimator.new.update 0).update 100).srtt ≠
      7 / 8 * (RttEstimator.new.update 0).srtt + 1 / 8 * 100 := by
  norm_num [RttEstimator.update, RttEstimator.update_rto, RttEstimator.new]


/-- C10: `calculate_rto` returns 1000 ms at retry count 0, equals
1000·log₂(n+1) ms truncated to whole milliseconds and capped at 30000 ms
otherwise, is monotone in the retry count, and always lies in
[1000 ms, 30000 ms]. -/
theorem calculate_rto_spec :
    calculate_rto 0 = 1000 ∧
    (∀ n, n ≠ 0 → calculate_rto n = ⌊min (rto_log_curve n) 30000⌋₊) ∧
    Monotone calculate_rto ∧
    (∀ n : ℕ, 1000 ≤ calculate_rto n ∧ calculate_rto n ≤ 30000) := by
  have hlog2 : (0 : ℝ) < Real.log 2 := Real.log_pos (by norm_num)
  have hmult : ∀ n : ℕ, (1 : ℝ) ≤ if n = 0 then 1 else Real.log ((n : ℝ) + 1) / Real.log 2 := by
    intro n
    by_cases hn : n = 0
    · simp [hn]
    · simp only [hn, ite_false, if_neg]
      rw [le_div_iff₀ hlog2, one_mul]
      apply Real.log_le_log (by norm_num)
      have h1 : (1 : ℝ) ≤ (n : ℝ) := by exact_mod_cast Nat.one_le_iff_ne_zero.mpr hn
      linarith
  have hmono : ∀ a b : ℕ, a ≤ b →
      (if a = 0 then (1 : ℝ) else Real.log ((a : ℝ) + 1) / Real.log 2) ≤
      (if b = 0 then 1 else Real.log ((b : ℝ) + 1) / Real.log 2) := by
    intro a b hab
    by_cases ha : a = 0
    · simpa [ha] using hmult b
    · have hb : b ≠ 0 := by omega
      simp only [ha, hb, ite_false, if_neg]
      have hlogle : Real.log ((a : ℝ) + 1) ≤ Real.log ((b : ℝ) + 1) := by
        apply Real.log_le_log (by positivity)
        have := (Nat.cast_le (α := ℝ)).mpr hab
        linarith
      exact div_le_div_of_nonneg_right hlogle hlog2.le
  refine ⟨?_, ?_, ?_, ?_⟩
  · norm_num [calculate_rto, INITIAL_RTO_MS]
  · intro n hn
    simp [calculate_rto, rto_log_curve, INITIAL_RTO_MS, hn]
  · intro a b hab
    simp only [calculate_rto]
    exact Nat.floor_mono (min_le_min (by
      have := hmono a b hab
      have h1000 : (0 : ℝ) ≤ (INITIAL_RTO_MS : ℝ) := by norm_num [INITIAL_RTO_MS]
      exact mul_le_mul_of_nonneg_left this h1000) le_rfl)
  · intro n
    constructor
    · simp only [calculate_rto]
      apply Nat.le_floor
      push_cast
      refine le_min ?_ (by norm_num)
      have := hmult n
      have hbase : ((INITIAL_RTO_MS : ℕ) : ℝ) = 1000 := by norm_num [INITIAL_RTO_MS]
      nlinarith
    · simp only [calculate_rto]
      apply Nat.floor_le_of_le
      exact (min_le_right _ _).trans (by norm_num)

/-- C10 witness: the theorem instantiated at retry counts 1 and 3, with the
hypothesis 1 ≠ 0 discharged concretely. -/
theorem calculate_rto_spec_witness :
    calculate_rto 1 = ⌊min (rto_log_curve 1) 30000⌋₊ ∧
    1000 ≤ calculate_rto 3 ∧ calculate_rto 3 ≤ 30000 :=
  ⟨calculate_rto_spec.2.1 1 (by norm_num), (calculate_rto_spec.2.2.2 3).1,
    (calculate_rto_spec.2.2.2 3).2⟩


/-! ### Table-key lemmas -/

/-- Membership in the keys of an insertion. -/
theorem tableKeys_hmInsert (t : List (ℕ × PacketInfo)) (k : ℕ) (v : PacketInfo)
    (j : ℕ) : j ∈ tableKeys (hmInsert t k v) ↔ (j ∈ tableKeys t ∧ j ≠ k) ∨ j = k := by
  simp only [tableKeys, hmInsert, List.map_append, List.mem_append, List.mem_map,
    List.mem_filter, List.map_cons, List.map_nil, List.mem_singleton, decide_eq_true_eq]
  constructor
  · rintro (⟨p, ⟨hp, hne⟩, rfl⟩ | h)
    · exact Or.inl ⟨⟨p, hp, rfl⟩, hne⟩
    · exact Or.inr h
  · rintro (⟨⟨p, hp, rfl⟩, hne⟩ | h)
    · exact Or.inl ⟨p, ⟨hp, hne⟩, rfl⟩
    · exact Or.inr h

/-- A map that keeps every entry's key keeps the key list. -/
theorem tableKeys_map_keep (t : List (ℕ × PacketInfo))
    (f : ℕ × PacketInfo → ℕ × PacketInfo) (hf : ∀ p, (f p).1 = p.1) :
    tableKeys (t.map f) = tableKeys t := by
  simp only [tableKeys, List.map_map]
  exact List.map_congr_left (fun p _ => hf p)

/-- The send loop preserves the table invariant and never touches
`last_acked_seq`. -/
theorem send_loop_state_inv (size character now : ℕ) :
    ∀ fuel s, TableInv s →
      TableInv (send_loop size character now fuel s).1 ∧
      (send_loop size character now fuel s).1.last_acked_seq = s.last_acked_seq := by
  intro fuel
  induction fuel with
  | zero => exact fun s h => ⟨h, rfl⟩
  | succ n ih =>
    intro s h
    rw [send_loop]
    split
    · rename_i hc
      have hinv : TableInv
          { s with
            unacked_packets :=
              hmInsert s.unacked_packets s.next_seq
                { packet := create_packet s.next_seq (min (size - s.transmitted) MAX_PAYLOAD) character,
                  sent_time := now, retry_count := 0 },
            transmitted := s.transmitted + min (size - s.transmitted) MAX_PAYLOAD,
            next_seq := s.next_seq + 1 } := by
        constructor
        · intro k hk
          rcases (tableKeys_hmInsert _ _ _ k).mp hk with ⟨hk', _⟩ | rfl
          · have := h.1 k hk'
            exact ⟨this.1, Nat.lt_succ_of_lt this.2⟩
          · exact ⟨h.2, Nat.lt_succ_self _⟩
        · exact Nat.lt_succ_of_lt h.2
      simpa using ih _ hinv
    · exact ⟨h, rfl⟩

/-- `send_new_packets` preserves the table invariant and `last_acked_seq`. -/
theorem send_new_packets_inv (size character now : ℕ) (s : TransmissionState)
    (h : TableInv s) :
    TableInv (send_new_packets size character now s).1 ∧
    (send_new_packets size character now s).1.last_acked_seq = s.last_acked_seq := by
  unfold send_new_packets
  split
  · exact ⟨h, rfl⟩
  · exact send_loop_state_inv size character now _ s h

/-- A validated acknowledgment (covering only allocated sequences) preserves
the table invariant and can only advance `last_acked_seq`. -/
theorem handle_ack_inv (s : TransmissionState) (a c : ℕ) (h : TableInv s)
    (ha : a < s.next_seq) :
    TableInv (handle_ack s a c) ∧
    s.last_acked_seq ≤ (handle_ack s a c).last_acked_seq ∧
    (handle_ack s a c).next_seq = s.next_seq := by
  unfold handle_ack
  dsimp only
  split
  · rename_i hlt
    refine ⟨⟨?_, ?_⟩, ?_, rfl⟩
    · intro k hk
      simp only [tableKeys, List.mem_map, List.mem_filter] at hk
      obtain ⟨p, ⟨hp, hcond⟩, rfl⟩ := hk
      have hbounds := h.1 p.1 (List.mem_map_of_mem (fun q => q.1) hp)
      simp only [decide_eq_true_eq, not_and, not_le] at hcond
      have : ¬(s.last_acked_seq < p.1 ∧ p.1 ≤ a) := by
        simpa using hcond
      rcases Nat.lt_or_ge a p.1 with hgt | hle
      · exact ⟨hgt, hbounds.2⟩
      · exact absurd ⟨hbounds.1, hle⟩ this
    · exact ha
    · exact Nat.le_of_lt hlt
  · exact ⟨h, le_refl _, rfl⟩

/-- The proactive-retransmission block changes no key, no
`last_acked_seq`, no `next_seq`. -/
theorem apply_proactive_frame (now : ℕ) (s : TransmissionState) (adv : ℕ) :
    tableKeys (apply_proactive now s adv).unacked_packets = tableKeys s.unacked_packets ∧
    (apply_proactive now s adv).last_acked_seq = s.last_acked_seq ∧
    (apply_proactive now s adv).next_seq = s.next_seq := by
  refine ⟨tableKeys_map_keep _ _ ?_, rfl, rfl⟩
  intro p
  dsimp only
  split <;> rfl

/-- `check_and_retransmit` changes no key, no `last_acked_seq`, no
`next_seq`: it only refreshes entries in place and adjusts the window. -/
theorem check_and_retransmit_frame (now : ℕ) (s : TransmissionState) :
    tableKeys (check_and_retransmit now s).unacked_packets = tableKeys s.unacked_packets ∧
    (check_and_retransmit now s).last_acked_seq = s.last_acked_seq ∧
    (check_and_retransmit now s).next_seq = s.next_seq := by
  unfold check_and_retransmit
  dsimp only
  split
  · exact ⟨rfl, rfl, rfl⟩
  · refine ⟨tableKeys_map_keep _ _ ?_, rfl, rfl⟩
    intro p
    dsimp only
    split <;> rfl

/-- Every validated engine step preserves the table invariant and never
decreases `last_acked_seq`. -/
theorem validStep_inv {size character : ℕ} {s s' : TransmissionState}
    (hst : ValidStep size character s s') (h : TableInv s) :
    TableInv s' ∧ s.last_acked_seq ≤ s'.last_acked_seq := by
  cases hst with
  | send now s =>
    have := send_new_packets_inv size character now s h
    exact ⟨this.1, le_of_eq this.2.symm⟩
  | ack a c s ha =>
    have := handle_ack_inv s a c h ha
    exact ⟨this.1, this.2.1⟩
  | proactive now adv s =>
    have := apply_proactive_frame now s adv
    refine ⟨⟨?_, ?_⟩, le_of_eq this.2.1.symm⟩
    · intro k hk
      rw [this.1] at hk
      rw [this.2.1, this.2.2]
      exact h.1 k hk
    · rw [this.2.1, this.2.2]; exact h.2
  | retransmit now s =>
    have := check_and_retransmit_frame now s
    refine ⟨⟨?_, ?_⟩, le_of_eq this.2.1.symm⟩
    · intro k hk
      rw [this.1] at hk
      rw [this.2.1, this.2.2]
      exact h.1 k hk
    · rw [this.2.1, this.2.2]; exact h.2
  | floodReduce s hf => exact ⟨⟨h.1, h.2⟩, le_refl _⟩

/-- Along any validated run the table invariant holds and `last_acked_seq`
is monotone. -/
theorem validReach_inv {size character : ℕ} {s s' : TransmissionState}
    (h : Relation.ReflTransGen (ValidStep size character) s s')
    (hs : TableInv s) :
    TableInv s' ∧ s.last_acked_seq ≤ s'.last_acked_seq := by
  induction h with
  | refl => exact ⟨hs, le_refl _⟩
  | tail _ hstep ih =>
    have := validStep_inv hstep ih.1
    exact ⟨this.1, ih.2.trans this.2⟩

/-- The initial state satisfies the table invariant. -/
theorem tableInv_init : TableInv initState := by
  constructor
  · intro k hk
    simp [initState, tableKeys] at hk
  · decide

/-- C6 (amended): in every state reachable from the initial transmission
state by sends, timeouts, proactive retransmissions and acknowledgments
that only cover allocated sequences (acked_seq < next_seq), every key in
the unacked-segment table is strictly greater than `last_acked_seq`; and
once a key is at or below some reached `last_acked_seq` (i.e. it has been
removed by cumulative acknowledgment), it is absent from the table in every
later reachable state — never reinserted. -/
theorem segment_table_invariant (size character : ℕ) (s s' : TransmissionState)
    (h1 : Relation.ReflTransGen (ValidStep size character) initState s)
    (h2 : Relation.ReflTransGen (ValidStep size character) s s') :
    (∀ k ∈ tableKeys s'.unacked_packets, s'.last_acked_seq < k) ∧
    (∀ k, k ≤ s.last_acked_seq → k ∉ tableKeys s'.unacked_packets) := by
  have hs : TableInv s := (validReach_inv h1 tableInv_init).1
  have hs' := validReach_inv h2 hs
  have hmono := hs'.2
  refine ⟨fun k hk => (hs'.1.1 k hk).1, fun k hk hmem => ?_⟩
  have hgt := (hs'.1.1 k hmem).1
  omega

/-- C6 witness: the invariant instantiated on the concrete one-step run
that sends the first burst of a 3000-byte transfer. -/
theorem segment_table_invariant_witness :
    (∀ k ∈ tableKeys c6w1.unacked_packets, c6w1.last_acked_seq < k) ∧
    (∀ k, k ≤ initState.last_acked_seq → k ∉ tableKeys c6w1.unacked_packets) :=
  segment_table_invariant 3000 65 initState c6w1 Relation.ReflTransGen.refl
    (Relation.ReflTransGen.tail Relation.ReflTransGen.refl (ValidStep.send 0 initState))

/-- C6 counterexample to the claim as stated (acknowledgments left
arbitrary, as the code accepts them): after the first 10-packet burst of a
20000-byte transfer, an acknowledgment claiming the never-sent sequence 100
empties the table and sets `last_acked_seq` = 100; the next send step then
inserts key 11 ≤ 100, breaking the invariant in a reachable state. -/
theorem segment_table_invariant_cex :
    Relation.ReflTransGen (EngStep 20000 65) initState c6s3 ∧
    11 ∈ tableKeys c6s3.unacked_packets ∧ ¬c6s3.last_acked_seq < 11 :=
  ⟨Relation.ReflTransGen.tail
      (Relation.ReflTransGen.tail
        (Relation.ReflTransGen.tail Relation.ReflTransGen.refl (EngStep.send 0 initState))
        (EngStep.ack 100 7 c6s1))
      (EngStep.send 1 c6s2),
    by decide, by decide⟩

/-- Unfolding a positive pass of the send loop. -/
theorem send_loop_succ_pos (size character now fuel : ℕ) (s : TransmissionState)
    (h : s.transmitted < size ∧ s.unacked_packets.length < s.window_size) :
    send_loop size character now (fuel + 1) s =
      ((send_loop size character now fuel (sendPacket size character now s).2).1,
        (sendPacket size character now s).1 ::
          (send_loop size character now fuel (sendPacket size character now s).2).2) := by
  rw [send_loop, if_pos h]

/-- Unfolding a halting pass of the send loop. -/
theorem send_loop_not_pos (size character now fuel : ℕ) (s : TransmissionState)
    (h : ¬(s.transmitted < size ∧ s.unacked_packets.length < s.window_size)) :
    send_loop size character now (fuel + 1) s = (s, []) := by
  rw [send_loop, if_neg h]

/-- C8: with totalBytes = 3000 and an initial window of at least 3, the send
phase before any acknowledgment emits exactly the three segments with
sequences 1, 2, 3 and payload lengths 1200, 1200, 600; and every segment is
the big-endian 4-byte sequence, the big-endian 2-byte length, then the fill
byte repeated. -/
theorem engine_first_burst_3000 (w character : ℕ) (hw : 3 ≤ w) :
    (send_new_packets 3000 character 0 (c8s0 w)).2 =
      [create_packet 1 1200 character, create_packet 2 1200 character,
        create_packet 3 600 character] ∧
    (∀ seq len ch, create_packet seq len ch =
      toBeBytes4 seq ++ toBeBytes2 len ++ List.replicate len ch) := by
  refine ⟨?_, fun seq len ch => rfl⟩
  have A1 : send_loop 3000 character 0 3000 (c8s0 w) =
      ((send_loop 3000 character 0 2999 (c8s1 w character)).1,
        (sendPacket 3000 character 0 (c8s0 w)).1 ::
          (send_loop 3000 character 0 2999 (c8s1 w character)).2) :=
    send_loop_succ_pos 3000 character 0 2999 (c8s0 w)
      ⟨by norm_num [c8s0, initState], by simp [c8s0, initState]; omega⟩
  have A2 : send_loop 3000 character 0 2999 (c8s1 w character) =
      ((send_loop 3000 character 0 2998 (c8s2 w character)).1,
        (sendPacket 3000 character 0 (c8s1 w character)).1 ::
          (send_loop 3000 character 0 2998 (c8s2 w character)).2) :=
    send_loop_succ_pos 3000 character 0 2998 (c8s1 w character)
      ⟨by norm_num [c8s1, c8s0, initState, sendPacket, MAX_PAYLOAD],
        by simp [c8s1, c8s0, initState, sendPacket, hmInsert]; omega⟩
  have A3 : send_loop 3000 character 0 2998 (c8s2 w character) =
      ((send_loop 3000 character 0 2997 (c8s3 w character)).1,
        (sendPacket 3000 character 0 (c8s2 w character)).1 ::
          (send_loop 3000 character 0 2997 (c8s3 w character)).2) :=
    send_loop_succ_pos 3000 character 0 2997 (c8s2 w character)
      ⟨by norm_num [c8s2, c8s1, c8s0, initState, sendPacket, MAX_PAYLOAD],
        by simp [c8s2, c8s1, c8s0, initState, sendPacket, hmInsert]; omega⟩
  have A4 : send_loop 3000 character 0 2997 (c8s3 w character) =
      (c8s3 w character, []) :=
    send_loop_not_pos 3000 character 0 2996 (c8s3 w character)
      (by norm_num [c8s3, c8s2, c8s1, c8s0, initState, sendPacket, MAX_PAYLOAD])
  show (send_loop 3000 character 0 3000 (c8s0 w)).2 = _
  rw [A1]
  dsimp only
  rw [A2]
  dsimp only
  rw [A3]
  dsimp only
  rw [A4]
  norm_num [sendPacket, c8s2, c8s1, c8s0, initState, MAX_PAYLOAD]

/-- C8 witness: the theorem at the engine's real initial window (10) and
fill byte 65. -/
theorem engine_first_burst_3000_witness :
    (send_new_packets 3000 65 0 (c8s0 10)).2 =
      [create_packet 1 1200 65, create_packet 2 1200 65, create_packet 3 600 65] ∧
    (∀ seq len ch, create_packet seq len ch =
      toBeBytes4 seq ++ toBeBytes2 len ++ List.replicate len ch) :=
  engine_first_burst_3000 10 65 (by norm_num)

/-- C9: `send_new_packets` called with FLOOD_THRESHOLD = 5 or more unacked
packets transmits nothing and returns the state unchanged, whatever the
window size and remaining byte count. -/
theorem send_new_packets_flood_frame (size character now : ℕ)
    (s : TransmissionState) (h : FLOOD_THRESHOLD ≤ s.unacked_packets.length) :
    send_new_packets size character now s = (s, []) := by
  unfold send_new_packets
  rw [if_pos h]

/-- C9 witness: the theorem on a concrete state with exactly 5 unacked
packets, a wide-open window and plenty of bytes left. -/
theorem send_new_packets_flood_frame_witness :
    send_new_packets 100000 65 0 c9State = (c9State, []) :=
  send_new_packets_flood_frame 100000 65 0 c9State (by decide)

/-- C7 (amended): processing an acknowledgment with sequence ≤
`last_acked_seq` leaves the segment table — and everything else in the
transmission state — unchanged except for the check number, which
`handle_ack` overwrites unconditionally; nothing else distinguishes a
duplicate from a strictly stale ack. -/
theorem handle_ack_stale_frame (s : TransmissionState) (a c : ℕ)
    (h : a ≤ s.last_acked_seq) :
    handle_ack s a c = { s with checknum := c } := by
  unfold handle_ack
  dsimp only
  rw [if_neg (Nat.not_lt.mpr h)]

/-- C7 witness: a strictly stale ack (3 < 5) on a concrete state yields
exactly the check-number overwrite. -/
theorem handle_ack_stale_frame_witness :
    handle_ack c7State 3 9 = { c7State with checknum := 9 } :=
  handle_ack_stale_frame c7State 3 9 (by decide)

/-- C7 counterexample to the claim as stated: a strictly stale ack is *not*
ignored entirely — it rewrites the stored check number (the table, though,
stays untouched). -/
theorem handle_ack_stale_not_ignored_cex :
    handle_ack c7State 3 9 ≠ c7State ∧
    (handle_ack c7State 3 9).checknum = 9 ∧
    3 < c7State.last_acked_seq ∧
    (handle_ack c7State 3 9).unacked_packets = c7State.unacked_packets := by
  decide

/-- C3 (amended): a socket error other than timeout/would-block is only
reported to stderr: the loop iteration returns `ok` with exactly the
pre-receive phase's state, and the run is aborted only by the
global-timeout check. -/
theorem socket_error_absorbed (elapsed now size character : ℕ)
    (s : TransmissionState) (h : elapsed ≤ GLOBAL_TIMEOUT_MS) :
    transmit_loop_step elapsed now size character RecvOutcome.errOther s =
      Except.ok (loop_send_phase size character now s) := by
  unfold transmit_loop_step
  rw [if_neg (Nat.not_lt.mpr h)]

/-- C3 witness: the amended theorem on a concrete fresh iteration. -/
theorem socket_error_absorbed_witness :
    transmit_loop_step 0 5 3000 65 RecvOutcome.errOther initState =
      Except.ok (loop_send_phase 3000 65 5 initState) :=
  socket_error_absorbed 0 5 3000 65 initState (by norm_num [GLOBAL_TIMEOUT_MS])

/-- C3 counterexample to the claim as stated: a non-timeout socket error in
a concrete loop iteration does not abort the run — the iteration returns
`ok` (the loop continues) rather than an error. -/
theorem socket_error_not_fatal_cex :
    transmit_loop_step 0 0 3000 65 RecvOutcome.errOther initState =
      Except.ok c3Post := rfl

/-- C1: in the spec's full congestion-control engine, an acknowledgment
equal to `last_acked_seq` increments the duplicate-ack counter; the third
consecutive duplicate calls `on_fast_retransmit` exactly once, resets the
counter to 0 and immediately retransmits segment `last_acked_seq + 1`
(no timer is consulted); any earlier duplicate changes only the counter and
retransmits nothing. -/
theorem reno_duplicate_ack_fast_retransmit (now : ℕ) (st : RenoState)
    (a c : ℕ) (ha : a = st.last_acked_seq) :
    (st.dup_acks = 2 →
      reno_handle_ack now st a c =
        ({ st with dup_acks := 0, cc := st.cc.on_fast_retransmit },
          [st.last_acked_seq + 1])) ∧
    (st.dup_acks ≠ 2 →
      reno_handle_ack now st a c = ({ st with dup_acks := st.dup_acks + 1 }, [])) := by
  subst ha
  unfold reno_handle_ack
  rw [if_neg (lt_irrefl _), if_pos rfl]
  constructor
  · intro h2
    simp [h2]
  · intro h2
    rw [if_neg (by omega : ¬st.dup_acks + 1 = 3)]

/-- C1 witness: the theorem on a concrete state two duplicates deep — the
third duplicate ack fires one fast retransmit of segment 6. -/
theorem reno_duplicate_ack_fast_retransmit_witness :
    (renoDupState.dup_acks = 2 →
      reno_handle_ack 7 renoDupState 5 3 =
        ({ renoDupState with dup_acks := 0, cc := renoDupState.cc.on_fast_retransmit },
          [renoDupState.last_acked_seq + 1])) ∧
    (renoDupState.dup_acks ≠ 2 →
      reno_handle_ack 7 renoDupState 5 3 =
        ({ renoDupState with dup_acks := renoDupState.dup_acks + 1 }, [])) :=
  reno_duplicate_ack_fast_retransmit 7 renoDupState 5 3 rfl

/-- C2: in the spec's full congestion-control engine, a receive-timeout
tick on which segment `last_acked_seq + 1` is in the table with age
exceeding the current RTO retransmits exactly that segment — calling
`on_timeout` and `backoff`, refreshing its send time and bumping its retry
count — and no timeout tick ever retransmits more than one segment. -/
theorem reno_timeout_single_retransmit (now : ℕ) (st : RenoState) :
    (∀ info, hmGet st.table (st.last_acked_seq + 1) = some info →
      st.rtt.rto < now - info.sent_time →
      reno_on_timeout now st =
        ({ st with
            cc := st.cc.on_timeout, rtt := st.rtt.backoff,
            table := st.table.map (fun p =>
              if p.1 = st.last_acked_seq + 1 then
                (p.1, { p.2 with sent_time := now, retry_count := p.2.retry_count + 1 })
              else p) },
          [st.last_acked_seq + 1])) ∧
    (reno_on_timeout now st).2.length ≤ 1 := by
  constructor
  · intro info hget htime
    unfold reno_on_timeout
    rw [hget]
    dsimp only
    rw [if_pos htime]
  · unfold reno_on_timeout
    rcases h : hmGet st.table (st.last_acked_seq + 1) with _ | info
    · simp
    · dsimp only
      split <;> simp

/-- C2 witness: the theorem on a concrete state whose next expected segment
(sequence 1, sent at time 0, RTO 1000 ms) times out at clock 2000. -/
theorem reno_timeout_single_retransmit_witness :
    reno_on_timeout 2000 renoTimeoutState =
      ({ renoTimeoutState with
          cc := renoTimeoutState.cc.on_timeout, rtt := renoTimeoutState.rtt.backoff,
          table := renoTimeoutState.table.map (fun p =>
            if p.1 = renoTimeoutState.last_acked_seq + 1 then
              (p.1, { p.2 with sent_time := 2000, retry_count := p.2.retry_count + 1 })
            else p) },
        [renoTimeoutState.last_acked_seq + 1]) ∧
    (reno_on_timeout 2000 renoTimeoutState).2.length ≤ 1 :=
  ⟨(reno_timeout_single_retransmit 2000 renoTimeoutState).1
      { packet := [7], sent_time := 0, retry_count := 0 } (by decide) (by decide),
    (reno_timeout_single_retransmit 2000 renoTimeoutState).2⟩
